import Mathlib

/-!
Verification development for the moose MPC compiler repository.

The development shallowly embeds four source files:
* `moose/compiler/compiler.py` — the `Compiler` driver (`run_passes`, `compile`,
  `get_fresh_name`, the default pass list built in `__init__`);
* `moose/choreography/cape_coordinator.py` — the `Choreography` poll loop,
  session dispatch and status reporting;
* `pymoose/pymoose/edsl/base.py` — expression constructors (`add`, `sub`,
  `mul`, `div`, `cast`, `ones`, `zeros`) and the vtype assimilation helpers;
* `pymoose/pymoose/predictors/predictor_utils.py` — `find_parameters_in_model_proto`.

Python exceptions are modelled with `Except PyError`; mutable state
(`Compiler.name_counters`, `Choreography.session_tasks`) is threaded
explicitly.  Exception payload strings are not modelled, only the exception
class.
-/

namespace Moose

/-- Python exception classes raised by the embedded code. -/
inductive PyError where
  | valueError
  | typeError
  | assertionError
  | indexError
  | notImplementedError
deriving DecidableEq, Repr

/-! ## Data model for the EDSL (`pymoose/pymoose/edsl/base.py`)

The `pymoose.computation.dtypes` and `pymoose.computation.types` modules are
not part of the sources; the types below are modelled from the spec. -/

/-- Modelled from the spec: §3 DType — "floating point (32/64), integer
(signed/unsigned 32/64), boolean, and fixed-point (parameterized by
integer-bits and fraction-bits)".  The claims only need decidable equality of
dtypes, which the Python dataclasses provide structurally. -/
inductive DType where
  | float32
  | float64
  | int32
  | int64
  | uint32
  | uint64
  | bool_
  | fixed (integ frac : Nat)
deriving DecidableEq, Repr

/-- Modelled from the spec: value types used by `edsl/base.py` (§3 Operation
`output_type`: "tensor dtype+shape class, shape, string, ...").  `TensorType`
carries an optional dtype because the Python `TensorType.dtype` field may be
`None`. -/
inductive ValueType where
  | TensorType (dtype : Option DType)
  | FloatType
  | IntType
  | StringType
  | ShapeType
deriving DecidableEq, Repr

/-- Placement expressions from `edsl/base.py`: `HostPlacementExpression`,
`MirroredPlacementExpression`, `ReplicatedPlacementExpression`. -/
inductive PlacementExpression where
  | host (name : String)
  | mirrored (name : String) (players : List PlacementExpression)
  | replicated (name : String) (players : List PlacementExpression)

/-- Constant payloads from `pymoose.computation.values` as used by the
embedded constructors (`ShapeConstant` appears in the dead branch of
`ones`/`zeros`; `StringConstant` in `constant` for strings). -/
inductive ConstantValue where
  | ShapeConstant (value : List Nat)
  | StringConstant (value : String)

/-- Expression nodes from `edsl/base.py` relevant to the claims.  Every
subclass of the Python `Expression` dataclass stores `placement`, `inputs`
and `vtype`; `BinaryOpExpression` adds `op_name`, `ConstantExpression` adds
`value`.  `ArgumentExpression` stands for any other expression node used as
an operand. -/
inductive Expression where
  | ArgumentExpression (placement : PlacementExpression) (inputs : List Expression)
      (vtype : Option ValueType)
  | ConstantExpression (placement : PlacementExpression) (inputs : List Expression)
      (value : ConstantValue) (vtype : Option ValueType)
  | BinaryOpExpression (op_name : String) (placement : PlacementExpression)
      (inputs : List Expression) (vtype : Option ValueType)
  | CastExpression (placement : PlacementExpression) (inputs : List Expression)
      (vtype : Option ValueType)
  | OnesExpression (placement : PlacementExpression) (inputs : List Expression)
      (vtype : Option ValueType)
  | ZerosExpression (placement : PlacementExpression) (inputs : List Expression)
      (vtype : Option ValueType)

/-- The `vtype` field shared by all `Expression` dataclasses. -/
def Expression.vtype : Expression → Option ValueType
  | .ArgumentExpression _ _ v => v
  | .ConstantExpression _ _ _ v => v
  | .BinaryOpExpression _ _ _ v => v
  | .CastExpression _ _ v => v
  | .OnesExpression _ _ v => v
  | .ZerosExpression _ _ v => v

/-- Python attribute access `vtype.dtype`: only `TensorType` carries a
`dtype` field; all call sites in the embedded code guard with
`isinstance(·, ty.TensorType)` first. -/
def ValueType.tensorDtype : ValueType → Option DType
  | .TensorType d => d
  | _ => none

/-! ## Embedded EDSL constructors (`edsl/base.py`) -/

/-- `_assimilate_arg_dtypes(lhs_vtype, rhs_vtype, fn_name)` from
`edsl/base.py`: raises `ValueError` when the two tensor dtypes differ,
otherwise returns `lhs_vtype`. -/
def _assimilate_arg_dtypes (lhs_vtype rhs_vtype : ValueType) (_fn_name : String) :
    Except PyError ValueType :=
  let lhs_dtype := lhs_vtype.tensorDtype
  let rhs_dtype := rhs_vtype.tensorDtype
  if lhs_dtype ≠ rhs_dtype then Except.error PyError.valueError
  else Except.ok lhs_vtype

/-- `_assimilate_arg_vtypes(lhs_vtype, rhs_vtype, fn_name)` from
`edsl/base.py`: when both vtypes are `TensorType`, defer to
`_assimilate_arg_dtypes`; otherwise raise `ValueError` when the vtypes
differ, else return `lhs_vtype`. -/
def _assimilate_arg_vtypes (lhs_vtype rhs_vtype : Option ValueType) (fn_name : String) :
    Except PyError (Option ValueType) :=
  match lhs_vtype, rhs_vtype with
  | some (ValueType.TensorType d1), some (ValueType.TensorType d2) =>
      (_assimilate_arg_dtypes (ValueType.TensorType d1) (ValueType.TensorType d2)
        fn_name).map some
  | l, r => if l ≠ r then Except.error PyError.valueError else Except.ok l

/-- `add(lhs, rhs, placement)` from `edsl/base.py`.  The
`isinstance(·, Expression)` asserts hold by typing; the placement argument is
taken explicitly (`_materialize_placement_arg` with an explicit placement is
the identity). -/
def add (lhs rhs : Expression) (placement : PlacementExpression) :
    Except PyError Expression := do
  let vtype ← _assimilate_arg_vtypes lhs.vtype rhs.vtype "add"
  return Expression.BinaryOpExpression "add" placement [lhs, rhs] vtype

/-- `sub(lhs, rhs, placement)` from `edsl/base.py`. -/
def sub (lhs rhs : Expression) (placement : PlacementExpression) :
    Except PyError Expression := do
  let vtype ← _assimilate_arg_vtypes lhs.vtype rhs.vtype "sub"
  return Expression.BinaryOpExpression "sub" placement [lhs, rhs] vtype

/-- `mul(lhs, rhs, placement)` from `edsl/base.py`. -/
def mul (lhs rhs : Expression) (placement : PlacementExpression) :
    Except PyError Expression := do
  let vtype ← _assimilate_arg_vtypes lhs.vtype rhs.vtype "mul"
  return Expression.BinaryOpExpression "mul" placement [lhs, rhs] vtype

/-- `div(lhs, rhs, placement)` from `edsl/base.py`. -/
def div (lhs rhs : Expression) (placement : PlacementExpression) :
    Except PyError Expression := do
  let vtype ← _assimilate_arg_vtypes lhs.vtype rhs.vtype "div"
  return Expression.BinaryOpExpression "div" placement [lhs, rhs] vtype

/-- `cast(x, dtype, placement)` from `edsl/base.py`.  The Python `dtype`
argument may be a `DType` or `None` (numpy dtype objects, which the function
maps through `_NUMPY_DTYPES_MAP`, are outside the embedded argument domain).
Checks, in source order: the argument must be a tensor; its dtype must not be
`None`; the target dtype must not be `None`; casting to the value's own dtype
is a no-op returning `x` itself; otherwise a `CastExpression` is built. -/
def cast (x : Expression) (dtype : Option DType) (placement : PlacementExpression) :
    Except PyError Expression :=
  match x.vtype with
  | some (ValueType.TensorType none) => Except.error PyError.valueError
  | some (ValueType.TensorType (some xd)) =>
      match dtype with
      | none => Except.error PyError.valueError
      | some moose_dtype =>
          if xd = moose_dtype then Except.ok x
          else Except.ok (Expression.CastExpression placement [x]
            (some (ValueType.TensorType (some moose_dtype))))
  | _ => Except.error PyError.valueError

/-- Python values acceptable as the `shape` argument of `ones`/`zeros`: an
`Expression`, a python `list`, or a python `tuple`. -/
inductive ShapeArg where
  | expr (e : Expression)
  | pyList (xs : List Nat)
  | pyTuple (xs : List Nat)

/-- `isinstance(shape, Expression)` on a `ShapeArg`. -/
def ShapeArg.isExpression : ShapeArg → Bool
  | .expr _ => true
  | .pyList _ => false
  | .pyTuple _ => false

/-- `isinstance(shape, (list, tuple))` on a `ShapeArg`. -/
def ShapeArg.isListOrTuple : ShapeArg → Bool
  | .expr _ => false
  | .pyList _ => true
  | .pyTuple _ => true

/-- The expression held by a `ShapeArg`, when it is one. -/
def ShapeArg.asExpression : ShapeArg → Option Expression
  | .expr e => some e
  | _ => none

/-- `constant(values.ShapeConstant(value=shape), vtype=ty.ShapeType(),
placement=host_placement)` as called from the list/tuple branch of
`ones`/`zeros`: a `ShapeConstant` value matches none of the
ndarray/float/int/str branches of `constant`, so it falls through to the
final `ConstantExpression` with the supplied vtype. -/
def constantShape (xs : List Nat) (placement : PlacementExpression) : Expression :=
  Expression.ConstantExpression placement [] (ConstantValue.ShapeConstant xs)
    (some ValueType.ShapeType)

/-- The list/tuple branch of `ones`/`zeros` in `edsl/base.py`: select
`placement.players[0]` when the placement is replicated (an empty player list
would raise `IndexError`), then lift the python list/tuple into a
`ShapeConstant` expression.  On an `Expression` argument the branch is the
identity (it is never entered). -/
def liftShapeToConstant (shape : ShapeArg) (placement : PlacementExpression) :
    Except PyError ShapeArg :=
  match shape with
  | .pyList xs | .pyTuple xs =>
      match placement with
      | .replicated _ (p :: _) => Except.ok (ShapeArg.expr (constantShape xs p))
      | .replicated _ [] => Except.error PyError.indexError
      | plc => Except.ok (ShapeArg.expr (constantShape xs plc))
  | .expr e => Except.ok (ShapeArg.expr e)

/-- `ones(shape, dtype, placement)` from `edsl/base.py`.  The first statement
is `assert isinstance(shape, Expression)`; the subsequent
`isinstance(shape, (list, tuple))` branch lifts a bare shape into a
`ShapeConstant`.  The final `none` arm has no Python counterpart: after the
assert the shape is an expression, so `ShapeArg.asExpression` succeeds. -/
def ones (shape : ShapeArg) (dtype : DType) (placement : PlacementExpression) :
    Except PyError Expression := do
  if shape.isExpression = false then throw PyError.assertionError
  let shape ← if shape.isListOrTuple then liftShapeToConstant shape placement
              else pure shape
  match shape.asExpression with
  | some e =>
      return Expression.OnesExpression placement [e]
        (some (ValueType.TensorType (some dtype)))
  | none => throw PyError.typeError

/-- `zeros(shape, dtype, placement)` from `edsl/base.py`; identical to `ones`
except for the node constructed. -/
def zeros (shape : ShapeArg) (dtype : DType) (placement : PlacementExpression) :
    Except PyError Expression := do
  if shape.isExpression = false then throw PyError.assertionError
  let shape ← if shape.isListOrTuple then liftShapeToConstant shape placement
              else pure shape
  match shape.asExpression with
  | some e =>
      return Expression.ZerosExpression placement [e]
        (some (ValueType.TensorType (some dtype)))
  | none => throw PyError.typeError

/-! ## Predictor utilities (`pymoose/pymoose/predictors/predictor_utils.py`) -/

/-- An ONNX initializer tensor; only the `name` field is read by
`find_parameters_in_model_proto`. -/
structure TensorProto where
  name : String
deriving DecidableEq, Repr

/-- An ONNX model proto; only `graph.initializer` is read by
`find_parameters_in_model_proto`. -/
structure ModelProto where
  initializer : List TensorProto
deriving DecidableEq, Repr

/-- Whether the first char list is an initial segment of the second. -/
def charListHasStart : List Char → List Char → Bool
  | [], _ => true
  | _ :: _, [] => false
  | a :: as, b :: bs => a = b && charListHasStart as bs

/-- Whether `needle` occurs contiguously inside `hay`. -/
def charListInside : List Char → List Char → Bool
  | needle, [] => needle.isEmpty
  | needle, c :: rest => charListHasStart needle (c :: rest) || charListInside needle rest

/-- The Python substring test `needle in hay` on strings. -/
def pyInStr (needle hay : String) : Bool :=
  charListInside needle.data hay.data

/-- `find_parameters_in_model_proto(model_proto, operator_name, enforce)` from
`predictor_utils.py`.  The Python local `parameters` is modelled as
`Option (List TensorProto)` to reflect the `parameters is None` test: it is
initialised to `some []` (`parameters = []`) and the loop appends every
initializer whose name contains `operator_name`, so it is always `some`. -/
def find_parameters_in_model_proto (model_proto : ModelProto) (operator_name : String)
    (enforce : Bool) : Except PyError (List TensorProto) :=
  let parameters : Option (List TensorProto) :=
    some (model_proto.initializer.filter (fun op => pyInStr operator_name op.name))
  if enforce && parameters.isNone then Except.error PyError.valueError
  else Except.ok (parameters.getD [])

/-! ## Compiler driver (`moose/compiler/compiler.py`) -/

/-- Modelled from the spec: §3 Operation — `name`, `inputs` (ordered operation
names), `placement_name`, `output_type` (possibly unresolved).  The
`moose.computation.base` module is not part of the sources. -/
structure Operation where
  name : String
  inputs : List String
  placement_name : String
  output_type : Option String
deriving DecidableEq, Repr

/-- Modelled from the spec: §3 Computation — "a mapping from unique operation
name to Operation", embedded as an association list in deterministic order. -/
structure Computation where
  operations : List (String × Operation)
deriving DecidableEq, Repr

/-- `Compiler.name_counters`, a `defaultdict(int)` keyed by name prefix. -/
def NameCounters : Type := String → Nat

/-- The fresh `defaultdict(int)` installed by `Compiler.__init__`. -/
def initNameCounters : NameCounters := fun _ => 0

/-- `Compiler.get_fresh_name(self, prefix)` from `compiler.py`: read the
per-prefix counter, increment it, and return `f"{prefix}_{count}"`.  The
mutation of `self.name_counters` is returned as the second component. -/
def get_fresh_name (counters : NameCounters) (pfx : String) : String × NameCounters :=
  let count := counters pfx
  (pfx ++ "_" ++ Nat.repr count,
   fun q => if q = pfx then count + 1 else counters q)

/-- A compiler pass behaviour: `pass.run(computation, context)` returns the
rewritten computation and a changed flag, and may mutate the context's
name counters through `get_fresh_name`.  The concrete pass classes live
outside the given sources, so passes are quantified over. -/
def PassFn : Type := Computation → NameCounters → (Computation × Bool) × NameCounters

/-- `Compiler.run_passes` from `compiler.py`: fold the computation through
every pass in order, threading the compiler context.  Rendering is a debug
side effect with no influence on the returned graph and is not modelled. -/
def run_passes (passes : List PassFn) (computation : Computation)
    (counters : NameCounters) : Computation × NameCounters :=
  match passes with
  | [] => (computation, counters)
  | p :: rest =>
      let r := p computation counters
      run_passes rest r.1.1 r.2

/-- `Compiler.compile` from `compiler.py`: `run_passes` followed by debug
logging of every operation (no effect on the graph).  It does not touch
`name_counters`. -/
def compile (passes : List PassFn) (computation : Computation)
    (counters : NameCounters) : Computation × NameCounters :=
  run_passes passes computation counters

/-- The pass classes named in `Compiler.__init__`'s default pass list. -/
inductive PassName where
  | MpspdzApplyFunctionPass
  | HostEncodingPass
  | HostLoweringPass
  | ReplicatedEncodingPass
  | ReplicatedOpsPass
  | HostRingLoweringPass
  | ReplicatedLoweringPass (ring : Nat)
  | PruningPass
  | NetworkingPass
deriving DecidableEq, Repr

/-- The default pass list constructed by `Compiler.__init__(passes=None,
ring=64)` in `compiler.py`, in source order. -/
def defaultPasses (ring : Nat) : List PassName :=
  [PassName.MpspdzApplyFunctionPass,
   PassName.HostEncodingPass,
   PassName.HostLoweringPass,
   PassName.ReplicatedEncodingPass,
   PassName.ReplicatedOpsPass,
   PassName.HostRingLoweringPass,
   PassName.ReplicatedLoweringPass ring,
   PassName.PruningPass,
   PassName.NetworkingPass]

/-- The pass order asserted by the spec's system overview (§2), written from
the spec's words for comparison with `defaultPasses`: fixed-point encoding,
host lowering, ring lowering, replicated encoding, replicated ops, replicated
lowering, pruning, networking — and no other passes. -/
def specOverviewPasses (ring : Nat) : List PassName :=
  [PassName.HostEncodingPass,
   PassName.HostLoweringPass,
   PassName.HostRingLoweringPass,
   PassName.ReplicatedEncodingPass,
   PassName.ReplicatedOpsPass,
   PassName.ReplicatedLoweringPass ring,
   PassName.PruningPass,
   PassName.NetworkingPass]

/-! ## Choreography (`moose/choreography/cape_coordinator.py`) -/

/-- A session returned by `get_next_sessions`; only the `id` field drives
dispatch deduplication (`placementInstantiation`, the base64 computation and
`status` are decoded but do not influence which tasks are spawned). -/
structure SessionInfo where
  id : String
deriving DecidableEq, Repr

/-- Observable events of the choreography loop, in program order. -/
inductive ChoreoEvent where
  | login
  | sleep (delay : ℚ)
  | poll
  | spawn (session_id : String)
deriving DecidableEq, Repr

/-- The default `poll_delay` of `Choreography.__init__`. -/
def defaultPollDelay : ℚ := 10

/-- Positional call of `self._report_session_status(...)` whose definition is
`async def _report_session_status(self, session_id, status)`: exactly two
positional arguments bind, any other count raises `TypeError`.  On success
the pair `(session_id, status)` is reported to the control-plane client. -/
def callReportSessionStatus (args : List String) : Except PyError (String × String) :=
  match args with
  | [session_id, status] => Except.ok (session_id, status)
  | _ => Except.error PyError.typeError

/-- Outcome of one `_handle_session` task: the statuses actually reported to
the control plane, and the exception escaping the coroutine, if any. -/
structure HandleResult where
  reported : List (String × String)
  escaped : Option PyError
deriving DecidableEq, Repr

/-- `Choreography._handle_session` from `cape_coordinator.py`.  In source
order: report `"Started"` (outside the `try`), run the computation inside
`try`, and on exception report `"Error"` in the handler, otherwise report
`"Completed"` after the `try`.  Every report call passes the three arguments
`(session_id, self.own_name, status)`.  `run_result` stands for the outcome
of `executor.run_computation` (`Except.error` for any raised exception). -/
def handle_session (session_id own_name : String) (run_result : Except String Unit) :
    HandleResult :=
  match callReportSessionStatus [session_id, own_name, "Started"] with
  | Except.error e => { reported := [], escaped := some e }
  | Except.ok r1 =>
      match run_result with
      | Except.error _ =>
          match callReportSessionStatus [session_id, own_name, "Error"] with
          | Except.error e => { reported := [r1], escaped := some e }
          | Except.ok r2 => { reported := [r1, r2], escaped := none }
      | Except.ok _ =>
          match callReportSessionStatus [session_id, own_name, "Completed"] with
          | Except.error e => { reported := [r1], escaped := some e }
          | Except.ok r3 => { reported := [r1, r3], escaped := none }

/-- The inner `for session in sessions` loop of `Choreography.run`: a session
whose id is already in `session_tasks` is skipped; otherwise a task is
spawned and recorded in `session_tasks`.  Returns the updated task map
(as the list of tracked ids) and the spawn events in order. -/
def processSessions (tasks : List String) :
    List SessionInfo → List String × List ChoreoEvent
  | [] => (tasks, [])
  | s :: rest =>
      if s.id ∈ tasks then processSessions tasks rest
      else
        let r := processSessions (tasks ++ [s.id]) rest
        (r.1, ChoreoEvent.spawn s.id :: r.2)

/-- The body of `Choreography.run`'s `for i in itertools.count(start=1)`
loop, observed over a finite prefix of poll results.  Each iteration sleeps
when `i > 0`, polls `get_next_sessions`, and dispatches the returned
sessions. -/
def loopEvents (delay : ℚ) : Nat → List (List SessionInfo) → List String →
    List ChoreoEvent
  | _, [], _ => []
  | i, sessions :: rest, tasks =>
      let dispatched := processSessions tasks sessions
      (if i > 0 then [ChoreoEvent.sleep delay] else []) ++ [ChoreoEvent.poll] ++
        dispatched.2 ++ loopEvents delay (i + 1) rest dispatched.1

/-- `Choreography.run` from `cape_coordinator.py`: login once, then loop with
the iteration counter starting at `1` (`itertools.count(start=1)`) and the
task map starting empty. -/
def choreographyRun (delay : ℚ) (polls : List (List SessionInfo)) : List ChoreoEvent :=
  ChoreoEvent.login :: loopEvents delay 1 polls []

/-! ## Decimal representation lemmas

`get_fresh_name` renders counters with Python's decimal formatting, embedded
as `Nat.repr`.  The lemmas below show decimal renderings contain only digit
characters and that `Nat.repr` is injective, which yields injectivity of the
whole `prefix_counter` name and hence global freshness. -/

/-- Numeric value of a decimal digit character. -/
def digitCharVal (c : Char) : Nat := c.toNat - '0'.toNat

/-- Numeric value of a digit-character list, most significant digit first. -/
def digitsVal (l : List Char) : Nat :=
  l.foldl (fun acc c => acc * 10 + digitCharVal c) 0

theorem digitsVal_append_singleton (xs : List Char) (c : Char) :
    digitsVal (xs ++ [c]) = digitsVal xs * 10 + digitCharVal c := by
  simp [digitsVal, List.foldl_append]

theorem digitCharVal_digitChar : ∀ k, k < 10 → digitCharVal (Nat.digitChar k) = k := by
  decide

theorem isDigit_digitChar : ∀ k, k < 10 → (Nat.digitChar k).isDigit = true := by
  decide

theorem toDigitsCore_eq_append (fuel : Nat) :
    ∀ (n : Nat) (ds : List Char),
      Nat.toDigitsCore 10 fuel n ds = Nat.toDigitsCore 10 fuel n [] ++ ds := by
  induction fuel with
  | zero => intro n ds; simp [Nat.toDigitsCore]
  | succ fuel ih =>
      intro n ds
      simp only [Nat.toDigitsCore]
      by_cases h : n / 10 = 0
      · simp [h]
      · simp only [h, if_neg, ite_false]
        rw [ih (n / 10) (Nat.digitChar (n % 10) :: ds),
          ih (n / 10) [Nat.digitChar (n % 10)]]
        simp

theorem digitsVal_toDigitsCore :
    ∀ (fuel n : Nat), n < fuel → digitsVal (Nat.toDigitsCore 10 fuel n []) = n := by
  intro fuel
  induction fuel with
  | zero => intro n h; omega
  | succ fuel ih =>
      intro n h
      simp only [Nat.toDigitsCore]
      have hmod : n % 10 < 10 := Nat.mod_lt _ (by norm_num)
      by_cases h10 : n / 10 = 0
      · have hn : n < 10 := by omega
        simp only [h10, ite_true]
        have : digitsVal [Nat.digitChar (n % 10)] = digitCharVal (Nat.digitChar (n % 10)) := by
          simp [digitsVal]
        rw [this, digitCharVal_digitChar _ hmod]
        omega
      · simp only [h10, ite_false]
        rw [toDigitsCore_eq_append, digitsVal_append_singleton]
        have hlt : n / 10 < fuel := by omega
        rw [ih (n / 10) hlt, digitCharVal_digitChar _ hmod]
        omega

theorem isDigit_mem_toDigitsCore :
    ∀ (fuel n : Nat) (ds : List Char), (∀ c ∈ ds, c.isDigit = true) →
      ∀ c ∈ Nat.toDigitsCore 10 fuel n ds, c.isDigit = true := by
  intro fuel
  induction fuel with
  | zero => intro n ds hds; simpa [Nat.toDigitsCore] using hds
  | succ fuel ih =>
      intro n ds hds
      simp only [Nat.toDigitsCore]
      have hmod : n % 10 < 10 := Nat.mod_lt _ (by norm_num)
      have hcons : ∀ c ∈ Nat.digitChar (n % 10) :: ds, c.isDigit = true := by
        intro c hc
        rcases List.mem_cons.mp hc with hc | hc
        · subst hc; exact isDigit_digitChar _ hmod
        · exact hds c hc
      by_cases h10 : n / 10 = 0
      · simpa [h10] using hcons
      · simpa [h10] using ih (n / 10) (Nat.digitChar (n % 10) :: ds) hcons

theorem isDigit_mem_repr (n : Nat) : ∀ c ∈ (Nat.repr n).data, c.isDigit = true := by
  intro c hc
  refine isDigit_mem_toDigitsCore (n + 1) n [] (by simp) c ?_
  simpa [Nat.repr, Nat.toDigits, List.asString] using hc

theorem underscore_not_mem_repr (n : Nat) : '_' ∉ (Nat.repr n).data := by
  intro h
  have := isDigit_mem_repr n '_' h
  simp [Char.isDigit] at this

theorem repr_injective {m n : Nat} (h : Nat.repr m = Nat.repr n) : m = n := by
  have hdig : Nat.toDigits 10 m = Nat.toDigits 10 n := by
    have := congrArg String.data h
    simpa [Nat.repr, List.asString] using this
  have hm : digitsVal (Nat.toDigits 10 m) = m :=
    digitsVal_toDigitsCore (m + 1) m (Nat.lt_succ_self m)
  have hn : digitsVal (Nat.toDigits 10 n) = n :=
    digitsVal_toDigitsCore (n + 1) n (Nat.lt_succ_self n)
  rw [← hm, hdig, hn]

theorem append_cons_inj_of_not_mem {x : Char} :
    ∀ (b1 b2 a1 a2 : List Char), x ∉ b1 → x ∉ b2 →
      b1 ++ x :: a1 = b2 ++ x :: a2 → b1 = b2 ∧ a1 = a2 := by
  intro b1
  induction b1 with
  | nil =>
      intro b2 a1 a2 _ h2 heq
      cases b2 with
      | nil => simpa using heq
      | cons c cs =>
          simp only [List.nil_append, List.cons_append, List.cons.injEq] at heq
          exact absurd (heq.1 ▸ List.mem_cons_self c cs) (by
            intro hmem
            exact h2 (heq.1 ▸ List.mem_cons_self c cs))
  | cons c cs ih =>
      intro b2 a1 a2 h1 h2 heq
      cases b2 with
      | nil =>
          simp only [List.cons_append, List.nil_append, List.cons.injEq] at heq
          exact absurd (heq.1 ▸ List.mem_cons_self c cs) (by
            intro _
            exact h1 (heq.1 ▸ List.mem_cons_self c cs))
      | cons d ds =>
          simp only [List.cons_append, List.cons.injEq] at heq
          obtain ⟨rfl, heq2⟩ := heq
          have hr := ih ds a1 a2 (fun hm => h1 (List.mem_cons_of_mem _ hm))
            (fun hm => h2 (List.mem_cons_of_mem _ hm)) heq2
          exact ⟨by rw [hr.1], hr.2⟩

theorem string_eq_of_data {s t : String} (h : s.data = t.data) : s = t := by
  cases s; cases t; exact congrArg String.mk h

/-- Injectivity of `prefix ++ "_" ++ Nat.repr k`: the decimal suffix contains
no underscore, so splitting at the last underscore recovers both parts. -/
theorem fresh_name_inj (p1 p2 : String) (k1 k2 : Nat)
    (h : p1 ++ "_" ++ Nat.repr k1 = p2 ++ "_" ++ Nat.repr k2) : p1 = p2 ∧ k1 = k2 := by
  have hdata : p1.data ++ '_' :: (Nat.repr k1).data =
      p2.data ++ '_' :: (Nat.repr k2).data := by
    have := congrArg String.data h
    simpa [String.data_append] using this
  have hrev : (Nat.repr k1).data.reverse ++ '_' :: p1.data.reverse =
      (Nat.repr k2).data.reverse ++ '_' :: p2.data.reverse := by
    have := congrArg List.reverse hdata
    simpa [List.reverse_append] using this
  have h1 : '_' ∉ (Nat.repr k1).data.reverse := by
    simpa [List.mem_reverse] using underscore_not_mem_repr k1
  have h2 : '_' ∉ (Nat.repr k2).data.reverse := by
    simpa [List.mem_reverse] using underscore_not_mem_repr k2
  obtain ⟨hb, ha⟩ := append_cons_inj_of_not_mem _ _ _ _ h1 h2 hrev
  have hps : p1 = p2 := string_eq_of_data (List.reverse_injective ha)
  have hrs : Nat.repr k1 = Nat.repr k2 := string_eq_of_data (List.reverse_injective hb)
  exact ⟨hps, repr_injective hrs⟩

/-! ## Traces of successive `get_fresh_name` calls -/

/-- The trace of calling `get_fresh_name` once per element of `calls` (each
element is the prefix passed) on one `Compiler` instance, threading
`name_counters`: returns the names in call order and the final counters. -/
def runFresh : List String → NameCounters → List String × NameCounters
  | [], st => ([], st)
  | p :: ps, st =>
      let r1 := get_fresh_name st p
      let r2 := runFresh ps r1.2
      (r1.1 :: r2.1, r2.2)

theorem runFresh_counters (ps : List String) :
    ∀ (st : NameCounters) (q : String), (runFresh ps st).2 q = st q + ps.count q := by
  induction ps with
  | nil => intro st q; simp [runFresh]
  | cons p ps ih =>
      intro st q
      simp only [runFresh, ih, get_fresh_name, List.count_cons]
      by_cases h : q = p
      · subst h; simp; omega
      · have : ¬(p == q) = true := by simpa [beq_iff_eq] using fun hpq => h hpq.symm
        simp [h, this]

theorem runFresh_length (ps : List String) :
    ∀ st : NameCounters, (runFresh ps st).1.length = ps.length := by
  induction ps with
  | nil => intro st; rfl
  | cons p ps ih => intro st; simp [runFresh, ih]

theorem runFresh_getD (ps : List String) :
    ∀ (st : NameCounters) (i : Nat), i < ps.length →
      (runFresh ps st).1.getD i "" =
        (ps.getD i "") ++ "_" ++
          Nat.repr (st (ps.getD i "") + (ps.take i).count (ps.getD i "")) := by
  induction ps with
  | nil => intro st i h; simp at h
  | cons p ps ih =>
      intro st i h
      cases i with
      | zero => simp [runFresh, get_fresh_name]
      | succ i =>
          have hi : i < ps.length := by simpa using h
          simp only [runFresh, List.getD_cons_succ]
          rw [ih _ i hi]
          have hc : (get_fresh_name st p).2 (ps.getD i "") +
                (ps.take i).count (ps.getD i "") =
              st (ps.getD i "") + (((p :: ps).take (i + 1)).count (ps.getD i "")) := by
            set q := ps.getD i "" with hqdef
            simp only [List.take_succ_cons, List.count_cons, get_fresh_name]
            by_cases hq : q = p
            · rw [hq]; simp; omega
            · have hbe : (p == q) = false := by
                simp only [beq_eq_false_iff_ne, ne_eq]
                exact fun hpq => hq hpq.symm
              simp [hq, hbe]
          rw [hc]

theorem runFresh_mem (ps : List String) :
    ∀ (st : NameCounters) (n : String), n ∈ (runFresh ps st).1 →
      ∃ q k, n = q ++ "_" ++ Nat.repr k ∧ st q ≤ k := by
  induction ps with
  | nil => intro st n h; simp [runFresh] at h
  | cons p ps ih =>
      intro st n h
      simp only [runFresh, List.mem_cons] at h
      rcases h with h | h
      · exact ⟨p, st p, by simpa [get_fresh_name] using h, le_refl _⟩
      · obtain ⟨q, k, hn, hk⟩ := ih _ n h
        refine ⟨q, k, hn, le_trans ?_ hk⟩
        simp only [get_fresh_name]
        by_cases hq : q = p
        · subst hq; simp
        · simp [hq]

theorem runFresh_nodup (ps : List String) :
    ∀ st : NameCounters, (runFresh ps st).1.Nodup := by
  induction ps with
  | nil => intro st; simp [runFresh]
  | cons p ps ih =>
      intro st
      simp only [runFresh, List.nodup_cons]
      refine ⟨?_, ih _⟩
      intro hmem
      obtain ⟨q, k, hn, hk⟩ := runFresh_mem ps _ _ hmem
      obtain ⟨hq, hkk⟩ := fresh_name_inj p q (st p) k hn
      subst hq
      simp [get_fresh_name] at hk
      omega

/-! ## Dispatch-deduplication lemmas for the choreography loop -/

theorem processSessions_spawn_count (sid : String) :
    ∀ (ss : List SessionInfo) (tasks : List String),
      ((processSessions tasks ss).2).count (ChoreoEvent.spawn sid) +
          (if sid ∈ tasks then 1 else 0) =
        (if sid ∈ (processSessions tasks ss).1 then 1 else 0) := by
  intro ss
  induction ss with
  | nil => intro tasks; simp [processSessions]
  | cons s rest ih =>
      intro tasks
      by_cases hmem : s.id ∈ tasks
      · simpa [processSessions, hmem] using ih tasks
      · simp only [processSessions, hmem, ite_false]
        by_cases hsid : sid = s.id
        · subst hsid
          have hih := ih (tasks ++ [s.id])
          simp only [List.mem_append, List.mem_singleton, or_true, ite_true] at hih
          simp only [List.count_cons, beq_self_eq_true, ite_true, if_neg hmem]
          split_ifs at hih ⊢
          omega
        · have hbe : (ChoreoEvent.spawn s.id == ChoreoEvent.spawn sid) = false := by
            simp only [beq_eq_false_iff_ne, ne_eq, ChoreoEvent.spawn.injEq]
            exact fun hpq => hsid hpq.symm
          have hih := ih (tasks ++ [s.id])
          simp only [List.mem_append, List.mem_singleton, hsid, or_false] at hih
          simpa [List.count_cons, hbe] using hih

theorem processSessions_no_login :
    ∀ (ss : List SessionInfo) (tasks : List String),
      ChoreoEvent.login ∉ (processSessions tasks ss).2 := by
  intro ss
  induction ss with
  | nil => intro tasks; simp [processSessions]
  | cons s rest ih =>
      intro tasks
      by_cases hmem : s.id ∈ tasks
      · simpa [processSessions, hmem] using ih tasks
      · simp only [processSessions, hmem, ite_false, List.mem_cons]
        rintro (h | h)
        · exact ChoreoEvent.noConfusion h
        · exact ih (tasks ++ [s.id]) h

theorem loopEvents_spawn_count (sid : String) (delay : ℚ) :
    ∀ (polls : List (List SessionInfo)) (i : Nat) (tasks : List String),
      (loopEvents delay i polls tasks).count (ChoreoEvent.spawn sid) +
          (if sid ∈ tasks then 1 else 0) ≤ 1 := by
  intro polls
  induction polls with
  | nil => intro i tasks; simp only [loopEvents, List.count_nil]; split_ifs <;> omega
  | cons ss rest ih =>
      intro i tasks
      simp only [loopEvents, List.count_append]
      have h1 : (if i > 0 then [ChoreoEvent.sleep delay] else []).count
          (ChoreoEvent.spawn sid) = 0 := by
        split_ifs <;> simp [List.count_cons]
      have h2 : ([ChoreoEvent.poll] : List ChoreoEvent).count (ChoreoEvent.spawn sid) = 0 := by
        simp [List.count_cons]
      have h3 := processSessions_spawn_count sid ss tasks
      have h4 := ih (i + 1) (processSessions tasks ss).1
      rw [h1, h2]
      split_ifs at h3 h4 ⊢ <;> omega

theorem loopEvents_no_login (delay : ℚ) :
    ∀ (polls : List (List SessionInfo)) (i : Nat) (tasks : List String),
      ChoreoEvent.login ∉ loopEvents delay i polls tasks := by
  intro polls
  induction polls with
  | nil => intro i tasks; simp [loopEvents]
  | cons ss rest ih =>
      intro i tasks hmem
      simp only [loopEvents] at hmem
      rcases List.mem_append.mp hmem with hmem1 | h4
      · rcases List.mem_append.mp hmem1 with hmem2 | h3
        · rcases List.mem_append.mp hmem2 with h1 | h2
          · split at h1 <;> simp at h1
          · simp at h2
        · exact processSessions_no_login ss tasks h3
      · exact ih (i + 1) (processSessions tasks ss).1 h4

/-! ## Concrete instances used by counterexamples and witnesses -/

/-- The empty computation graph. -/
def emptyComputation : Computation := ⟨[]⟩

/-- A minimal pass in the style of the repository's passes: it requests one
fresh name from the compiler context and adds an operation under that name.
Used to observe the counter state across compile invocations. -/
def appendFreshOpPass : PassFn := fun computation counters =>
  let r := get_fresh_name counters "op"
  (({ operations := computation.operations ++
        [(r.1, { name := r.1, inputs := [], placement_name := "alice",
                 output_type := none })] }, true), r.2)

/-- An operand expression with the given tensor dtype, placed on a host. -/
def tensorArg (d : Option DType) : Expression :=
  Expression.ArgumentExpression (PlacementExpression.host "alice") []
    (some (ValueType.TensorType d))

/-- Helper: `_assimilate_arg_vtypes` on two tensor vtypes succeeds exactly
when the dtypes agree, returning the lhs vtype. -/
theorem assimilate_tensor_eq (d1 d2 : Option DType) (fn : String) :
    _assimilate_arg_vtypes (some (ValueType.TensorType d1))
        (some (ValueType.TensorType d2)) fn =
      if d1 = d2 then Except.ok (some (ValueType.TensorType d1))
      else Except.error PyError.valueError := by
  by_cases h : d1 = d2 <;>
    simp [_assimilate_arg_vtypes, _assimilate_arg_dtypes, ValueType.tensorDtype, h,
      Except.map]

/-! ## Claim theorems -/

/-- C1 counterexample: `Compiler.__init__` installs the fresh-name counters
and `compile` never resets them, so two successive `compile` invocations on
the same `Compiler` instance produce different graphs for a pass that
introduces a fresh-named operation (the first introduces `op_0`, the second
`op_1`), refuting "the fresh-name counters used by get_fresh_name are reset
at the start of each compile invocation". -/
theorem C1_counterexample_counters_persist :
    (compile [appendFreshOpPass] emptyComputation initNameCounters).1 ≠
      (compile [appendFreshOpPass] emptyComputation
        (compile [appendFreshOpPass] emptyComputation initNameCounters).2).1 := by
  decide

/-- C1 (amended): compiling the same input with the same pass list is
deterministic across `Compiler` instances whose counter states agree
pointwise — in particular across freshly constructed instances, since
`Compiler.__init__` initialises every counter to `0`; counters are
initialised at construction, not reset per `compile` invocation. -/
theorem C1_compile_deterministic_of_equal_counters (passes : List PassFn)
    (computation : Computation) (s1 s2 : NameCounters) (h : ∀ q, s1 q = s2 q) :
    compile passes computation s1 = compile passes computation s2 ∧
    (∀ q, initNameCounters q = 0) :=
  ⟨by have hs : s1 = s2 := funext h; rw [hs], fun _ => rfl⟩

/-- Witness for the amended C1 theorem at a concrete pass list and pair of
counter states. -/
theorem C1_compile_deterministic_witness :
    compile [appendFreshOpPass] emptyComputation initNameCounters =
      compile [appendFreshOpPass] emptyComputation (fun _ => 0) ∧
    (∀ q, initNameCounters q = 0) :=
  C1_compile_deterministic_of_equal_counters [appendFreshOpPass] emptyComputation
    initNameCounters (fun _ => 0) (fun _ => rfl)

/-- C2 (code bug in the source): every call of `_handle_session` raises
`TypeError` at the very first report, because the three-argument call
`self._report_session_status(session_id, self.own_name, "Started")` does not
match the two-parameter definition
`_report_session_status(self, session_id, status)`.  No status — neither
`Started` nor any terminal status — is ever reported, and the exception
escapes `_handle_session` regardless of the executor's outcome. -/
theorem C2_handle_session_raises_type_error (session_id own_name : String)
    (run_result : Except String Unit) :
    handle_session session_id own_name run_result =
      { reported := [], escaped := some PyError.typeError } := rfl

/-- C3 counterexample: the default pass list is not the spec-overview list —
it contains the extra `MpspdzApplyFunctionPass`, and the ring-lowering pass
(`HostRingLoweringPass`) runs after `ReplicatedEncodingPass`, not before. -/
theorem C3_counterexample_pass_order :
    defaultPasses 64 ≠ specOverviewPasses 64 ∧
    PassName.MpspdzApplyFunctionPass ∈ defaultPasses 64 ∧
    PassName.MpspdzApplyFunctionPass ∉ specOverviewPasses 64 ∧
    List.indexOf PassName.ReplicatedEncodingPass (defaultPasses 64) <
      List.indexOf PassName.HostRingLoweringPass (defaultPasses 64) := by
  decide

/-- C3 (amended): the default pass list is, in order,
MpspdzApplyFunction, fixed-point host encoding, host lowering, replicated
encoding, replicated ops, host ring lowering, replicated lowering (with the
configured ring), pruning, networking; ring lowering runs after the
replicated encoding and replicated ops passes and before replicated
lowering, and pruning runs before networking. -/
theorem C3_default_pass_list (ring : Nat) :
    defaultPasses ring =
      [PassName.MpspdzApplyFunctionPass, PassName.HostEncodingPass,
       PassName.HostLoweringPass, PassName.ReplicatedEncodingPass,
       PassName.ReplicatedOpsPass, PassName.HostRingLoweringPass,
       PassName.ReplicatedLoweringPass ring, PassName.PruningPass,
       PassName.NetworkingPass] ∧
    List.indexOf PassName.ReplicatedEncodingPass (defaultPasses 64) <
      List.indexOf PassName.HostRingLoweringPass (defaultPasses 64) ∧
    List.indexOf PassName.HostRingLoweringPass (defaultPasses 64) <
      List.indexOf (PassName.ReplicatedLoweringPass 64) (defaultPasses 64) ∧
    List.indexOf PassName.PruningPass (defaultPasses 64) <
      List.indexOf PassName.NetworkingPass (defaultPasses 64) :=
  ⟨rfl, by decide, by decide, by decide⟩

/-- C4: over any run of the choreography loop, at most one execution task is
spawned per session id — a session whose id is already tracked in
`session_tasks` is skipped — and dispatching the same id in two successive
poll cycles spawns exactly one task. -/
theorem C4_at_most_one_task_per_session (delay : ℚ)
    (polls : List (List SessionInfo)) (sid : String) :
    (choreographyRun delay polls).count (ChoreoEvent.spawn sid) ≤ 1 ∧
    (choreographyRun defaultPollDelay [[⟨"session-1"⟩], [⟨"session-1"⟩]]).count
        (ChoreoEvent.spawn "session-1") = 1 := by
  constructor
  · have h := loopEvents_spawn_count sid delay polls 1 []
    simp only [List.not_mem_nil, ite_false, Nat.add_zero] at h
    simpa [choreographyRun, List.count_cons] using h
  · decide

/-- C5: on one `Compiler` instance, the k-th `get_fresh_name` call with
prefix `p` (counting only calls with that prefix) returns `p ++ "_" ++ k`
with the per-prefix counter starting at `0`, and all names returned across
any sequence of calls are pairwise distinct. -/
theorem C5_fresh_name_format_and_distinct (calls : List String) (i : Nat)
    (h : i < calls.length) :
    (runFresh calls initNameCounters).1.getD i "" =
      (calls.getD i "") ++ "_" ++
        Nat.repr ((calls.take i).count (calls.getD i "")) ∧
    (runFresh calls initNameCounters).1.Nodup := by
  constructor
  · have hg := runFresh_getD calls initNameCounters i h
    simpa [initNameCounters] using hg
  · exact runFresh_nodup calls initNameCounters

/-- Witness for C5: the third call in the sequence `x, y, x` is the second
`x`-call and yields `x_1`; the resulting name list has no duplicates. -/
theorem C5_fresh_name_witness :
    ((runFresh ["x", "y", "x"] initNameCounters).1.getD 2 "" =
        ((["x", "y", "x"] : List String).getD 2 "") ++ "_" ++
          Nat.repr (((["x", "y", "x"] : List String).take 2).count
            ((["x", "y", "x"] : List String).getD 2 "")) ∧
      (runFresh ["x", "y", "x"] initNameCounters).1.Nodup) :=
  C5_fresh_name_format_and_distinct ["x", "y", "x"] 2 (by decide)

/-- C6: for operands whose vtypes are both `TensorType`, each of `add`,
`sub`, `mul`, `div` raises `ValueError` exactly when the dtypes differ, and
when they agree it builds a `BinaryOpExpression` whose vtype is the lhs
vtype. -/
theorem C6_binop_dtype_check (lhs rhs : Expression) (placement : PlacementExpression)
    (d1 d2 : Option DType) (h1 : lhs.vtype = some (ValueType.TensorType d1))
    (h2 : rhs.vtype = some (ValueType.TensorType d2)) :
    (d1 = d2 →
      add lhs rhs placement = Except.ok (Expression.BinaryOpExpression "add"
        placement [lhs, rhs] lhs.vtype) ∧
      sub lhs rhs placement = Except.ok (Expression.BinaryOpExpression "sub"
        placement [lhs, rhs] lhs.vtype) ∧
      mul lhs rhs placement = Except.ok (Expression.BinaryOpExpression "mul"
        placement [lhs, rhs] lhs.vtype) ∧
      div lhs rhs placement = Except.ok (Expression.BinaryOpExpression "div"
        placement [lhs, rhs] lhs.vtype)) ∧
    (d1 ≠ d2 →
      add lhs rhs placement = Except.error PyError.valueError ∧
      sub lhs rhs placement = Except.error PyError.valueError ∧
      mul lhs rhs placement = Except.error PyError.valueError ∧
      div lhs rhs placement = Except.error PyError.valueError) := by
  constructor
  · intro hd
    refine ⟨?_, ?_, ?_, ?_⟩ <;>
      simp [add, sub, mul, div, h1, h2, assimilate_tensor_eq, hd]
  · intro hd
    refine ⟨?_, ?_, ?_, ?_⟩ <;>
      simp [add, sub, mul, div, h1, h2, assimilate_tensor_eq, hd]

/-- Witness for C6 at two `float64` tensor operands (the agreeing-dtype
branch). -/
theorem C6_binop_witness :
    add (tensorArg (some DType.float64)) (tensorArg (some DType.float64))
        (PlacementExpression.host "alice") =
      Except.ok (Expression.BinaryOpExpression "add" (PlacementExpression.host "alice")
        [tensorArg (some DType.float64), tensorArg (some DType.float64)]
        (tensorArg (some DType.float64)).vtype) ∧
    sub (tensorArg (some DType.float64)) (tensorArg (some DType.float64))
        (PlacementExpression.host "alice") =
      Except.ok (Expression.BinaryOpExpression "sub" (PlacementExpression.host "alice")
        [tensorArg (some DType.float64), tensorArg (some DType.float64)]
        (tensorArg (some DType.float64)).vtype) ∧
    mul (tensorArg (some DType.float64)) (tensorArg (some DType.float64))
        (PlacementExpression.host "alice") =
      Except.ok (Expression.BinaryOpExpression "mul" (PlacementExpression.host "alice")
        [tensorArg (some DType.float64), tensorArg (some DType.float64)]
        (tensorArg (some DType.float64)).vtype) ∧
    div (tensorArg (some DType.float64)) (tensorArg (some DType.float64))
        (PlacementExpression.host "alice") =
      Except.ok (Expression.BinaryOpExpression "div" (PlacementExpression.host "alice")
        [tensorArg (some DType.float64), tensorArg (some DType.float64)]
        (tensorArg (some DType.float64)).vtype) :=
  (C6_binop_dtype_check (tensorArg (some DType.float64)) (tensorArg (some DType.float64))
    (PlacementExpression.host "alice") (some DType.float64) (some DType.float64)
    rfl rfl).1 rfl

/-- C7 (code bug in the source): `run` logs in exactly once at startup, but
because `itertools.count(start=1)` makes the guard `i > 0` always true, the
poll delay elapses before the first `get_next_sessions` call as well — the
first three events are login, sleep, poll, not login, poll.  The default
`poll_delay` is 10. -/
theorem C7_delay_before_first_poll (delay : ℚ) (first : List SessionInfo)
    (rest : List (List SessionInfo)) :
    (choreographyRun delay (first :: rest)).take 3 =
      [ChoreoEvent.login, ChoreoEvent.sleep delay, ChoreoEvent.poll] ∧
    (choreographyRun delay (first :: rest)).count ChoreoEvent.login = 1 ∧
    defaultPollDelay = 10 := by
  refine ⟨?_, ?_, rfl⟩
  · simp [choreographyRun, loopEvents]
  · have h := loopEvents_no_login delay (first :: rest) 1 []
    simp [choreographyRun, List.count_cons, List.count_eq_zero.mpr h]

/-- C8: casting a tensor-typed expression with a well-defined dtype to its
own dtype returns the expression itself unchanged (no `CastExpression` is
created), and for every valid target dtype a second identical cast is the
identity on the first cast's result. -/
theorem C8_cast_same_dtype_noop (x : Expression) (d d2 : DType)
    (placement : PlacementExpression)
    (h : x.vtype = some (ValueType.TensorType (some d))) :
    cast x (some d) placement = Except.ok x ∧
    (cast x (some d2) placement).bind (fun y => cast y (some d2) placement) =
      cast x (some d2) placement := by
  constructor
  · simp [cast, h]
  · by_cases hd : d = d2
    · subst hd
      have hc : cast x (some d) placement = Except.ok x := by
        simp [cast, h]
      rw [hc]
      simp only [Except.bind]
      exact hc
    · have hc : cast x (some d2) placement =
          Except.ok (Expression.CastExpression placement [x]
            (some (ValueType.TensorType (some d2)))) := by
        simp [cast, h, hd]
      rw [hc]
      simp only [Except.bind]
      simp [cast, Expression.vtype]

/-- Witness for C8 at a `float32` tensor operand, with `float64` as the
second target dtype. -/
theorem C8_cast_witness :
    cast (tensorArg (some DType.float32)) (some DType.float32)
        (PlacementExpression.host "alice") =
      Except.ok (tensorArg (some DType.float32)) ∧
    (cast (tensorArg (some DType.float32)) (some DType.float64)
        (PlacementExpression.host "alice")).bind
      (fun y => cast y (some DType.float64) (PlacementExpression.host "alice")) =
      cast (tensorArg (some DType.float32)) (some DType.float64)
        (PlacementExpression.host "alice") :=
  C8_cast_same_dtype_noop (tensorArg (some DType.float32)) DType.float32 DType.float64
    (PlacementExpression.host "alice") rfl

/-- C9: `ones` and `zeros` raise `AssertionError` whenever the shape
argument is a python list or tuple (the first statement asserts it is an
`Expression`), and no shape argument is both an `Expression` and a
list/tuple, so the branch lifting a list/tuple into a `ShapeConstant` is
unreachable. -/
theorem C9_ones_zeros_assert_on_list (xs : List Nat) (dtype : DType)
    (placement : PlacementExpression) :
    ones (ShapeArg.pyList xs) dtype placement = Except.error PyError.assertionError ∧
    ones (ShapeArg.pyTuple xs) dtype placement = Except.error PyError.assertionError ∧
    zeros (ShapeArg.pyList xs) dtype placement = Except.error PyError.assertionError ∧
    zeros (ShapeArg.pyTuple xs) dtype placement = Except.error PyError.assertionError ∧
    (∀ s : ShapeArg, s.isExpression = true → s.isListOrTuple = false) := by
  refine ⟨rfl, rfl, rfl, rfl, fun s hs => ?_⟩
  cases s <;> simp_all [ShapeArg.isExpression, ShapeArg.isListOrTuple]

/-- Witness for C9 at a concrete list shape and a concrete expression
shape. -/
theorem C9_ones_zeros_witness :
    ones (ShapeArg.pyList [2, 3]) DType.float64 (PlacementExpression.host "alice") =
      Except.error PyError.assertionError ∧
    (ShapeArg.expr (tensorArg (some DType.float64))).isListOrTuple = false :=
  ⟨(C9_ones_zeros_assert_on_list [2, 3] DType.float64
      (PlacementExpression.host "alice")).1,
   (C9_ones_zeros_assert_on_list [2, 3] DType.float64
      (PlacementExpression.host "alice")).2.2.2.2
     (ShapeArg.expr (tensorArg (some DType.float64))) rfl⟩

/-- C10: `find_parameters_in_model_proto` never raises — for every model
proto, operator name and `enforce` flag it returns the (possibly empty) list
of initializers whose names contain the operator name, because the local
`parameters` is always a list and the `parameters is None` guard can never
fire. -/
theorem C10_find_parameters_never_raises (model_proto : ModelProto)
    (operator_name : String) (enforce : Bool) :
    find_parameters_in_model_proto model_proto operator_name enforce =
      Except.ok (model_proto.initializer.filter
        (fun op => pyInStr operator_name op.name)) := by
  cases enforce <;> rfl

end Moose
